import Mathlib

/-!
Verification of the three-tier memory system and hybrid retriever
(`src/memory_system.py`, `src/hybrid_retriever.py`).

The Python classes are shallowly embedded: each class becomes a structure
holding its mutable fields, each method a function from the old state to the
new state (returning the method result alongside).  External collaborators are
embedded as parameters:

* the token counter (`TokenCounter`, backed by tiktoken) becomes a `Tokenizer`
  structure with a `count` and a `truncate` field — the core only ever calls
  these two methods and treats their algorithm as opaque;
* the Summarizer (`llm_compressor.generate`, which may raise) becomes a
  function `String → Except Unit String`, `.error` embedding a raised
  exception;
* `datetime.now()` timestamps are environment-dependent metadata and are
  omitted from the embedded records (no claim mentions them).

Machine integers are embedded as `Nat`/`Int`; Python float arithmetic in the
retriever scores is idealized as exact arithmetic (`ℚ` for the rational
components, `ℝ` with `Real.exp` for the recency decay).
-/

/-- Embedding of the `TokenCounter` collaborator: a pluggable, deterministic
length measurement (`count`) and prefix truncation (`truncate`), as used by
the tiers.  `truncate` takes the token budget as `Int` because Python passes
an `int`. -/
structure Tokenizer where
  count : String → Nat
  truncate : String → Int → String

/-- Embedding of the Summarizer collaborator `llm_compressor.generate`:
either returns the generated text or raises (`.error`). -/
def Summarizer : Type := String → Except Unit String

/-- Python `int(q)` on a rational: truncation toward zero. -/
def pyInt (q : ℚ) : Int := if q < 0 then ⌈q⌉ else ⌊q⌋

/-- Entry of `SensoryMemory.turns` as built by `SensoryMemory.store`
(lines 40-49): note that it has no `entities` field — `store` does not copy
`entities` out of the incoming turn dict. -/
structure SensoryTurn where
  turn_number : Nat
  user_message : String
  assistant_response : String
  tool_output : String
  tokens : Nat
deriving DecidableEq, Repr

/-- Entry of `ShortTermMemory.compressed_turns` (lines 100-109). -/
structure CondensedTurn where
  turn_number : Nat
  original_tokens : Nat
  compressed_summary : String
  compressed_tokens : Nat
  entities : List String
deriving DecidableEq, Repr

/-- Entry of `LongTermMemory.memories` (lines 192-199). -/
structure ArchivedMemory where
  id : Nat
  turn_number : Nat
  ultra_summary : String
  entities : List String
  tokens : Nat
deriving DecidableEq, Repr

instance : Inhabited ArchivedMemory := ⟨⟨0, 0, "", [], 0⟩⟩

/-- The argument of `ThreeTierMemorySystem.store_turn`. -/
structure TurnInput where
  user_message : String
  assistant_response : String
  tool_output : String
  entities : List String
deriving DecidableEq, Repr

/-- The `turn_data` dict built inside `store_turn` (lines 288-294). -/
structure TurnData where
  turn_number : Nat
  user_message : String
  assistant_response : String
  tool_output : String
  entities : List String
deriving DecidableEq, Repr

/-- Mutable state of `SensoryMemory`. -/
structure SensoryMemory where
  turns : List SensoryTurn
  max_turns : Int
deriving DecidableEq, Repr

/-- Mutable state of `ShortTermMemory`. -/
structure ShortTermMemory where
  compressed_turns : List CondensedTurn
  max_turns : Int
  compression_ratio : ℚ
deriving DecidableEq, Repr

/-- The entity index `LongTermMemory.entity_index`: a Python dict from entity
string to list of memory ids, embedded as an insertion-ordered association
list (Python dicts preserve insertion order; keys stay unique because entries
are only created via `idxAppend`). -/
abbrev EntityIndex : Type := List (String × List Nat)

/-- Mutable state of `LongTermMemory`. -/
structure LongTermMemory where
  memories : List ArchivedMemory
  max_memories : Int
  entity_index : EntityIndex
deriving DecidableEq, Repr

/-- Mutable state of `ThreeTierMemorySystem` (the collaborator
`llm_compressor` is passed to the operations instead of being stored). -/
structure ThreeTierMemorySystem where
  sensory : SensoryMemory
  short_term : ShortTermMemory
  long_term : LongTermMemory
  current_turn : Nat
deriving DecidableEq, Repr

/-- Lookup `entity_index.get(entity, [])`. -/
def idxGet (idx : EntityIndex) (e : String) : List Nat :=
  (((idx.find? (fun p => p.1 == e)).map Prod.snd)).getD []

/-- Embedding of lines 204-207 for a single entity: create the entry if the
key is absent, then append the memory id. -/
def idxAppend (idx : EntityIndex) (e : String) (mid : Nat) : EntityIndex :=
  if idx.any (fun p => p.1 == e) then
    idx.map (fun p => if p.1 == e then (p.1, p.2 ++ [mid]) else p)
  else idx ++ [(e, [mid])]

/-- Embedding of lines 213-217 for a single entity: if the key is present,
drop every occurrence of the evicted id from its list. -/
def idxRemoveId (idx : EntityIndex) (e : String) (mid : Nat) : EntityIndex :=
  idx.map (fun p => if p.1 == e then (p.1, p.2.filter (fun x => x != mid)) else p)

/-- Embedding of `SensoryMemory.store` (lines 38-54): append the rebuilt turn
record, then pop and return the oldest turn when over capacity.  The popped
list is `turns ++ [t]`, hence never empty, so `head?`/`tail` faithfully model
`pop(0)`. -/
def SensoryMemory.store (tok : Tokenizer) (sm : SensoryMemory) (td : TurnData) :
    SensoryMemory × Option SensoryTurn :=
  let t : SensoryTurn :=
    { turn_number := td.turn_number
      user_message := td.user_message
      assistant_response := td.assistant_response
      tool_output := td.tool_output
      tokens := tok.count (td.user_message ++ " " ++ td.assistant_response) }
  let l := sm.turns ++ [t]
  if (l.length : Int) > sm.max_turns then
    ({ sm with turns := l.tail }, l.head?)
  else
    ({ sm with turns := l }, none)

/-- The prompt built by `ShortTermMemory._compress_turn` (lines 121-136). -/
def compressPrompt (tok : Tokenizer) (ratio : ℚ) (t : SensoryTurn) : String :=
  "Summarize this conversation turn concisely, keeping all key facts:\n\nUser Query: "
    ++ t.user_message
    ++ "\nAssistant Response: " ++ t.assistant_response
    ++ "\nTool Output: " ++ (t.tool_output.take 500)
    ++ "\n\nRequirements:\n- Preserve: entities, numbers, decisions, questions\n- Remove: verbose explanations, filler words\n- Target length: "
    ++ toString (pyInt ((tok.count (t.user_message ++ t.assistant_response) : ℚ) * ratio))
    ++ " tokens\n\nFormat:\nUser asked: [concise question]\nResponse: [key points only]\nKey info: [entities, numbers]\n"

/-- Embedding of `ShortTermMemory._compress_turn` (lines 116-145): call the
Summarizer on the prompt; on an exception fall back to a deterministic
truncation of the combined source text. -/
def ShortTermMemory.compress_turn (tok : Tokenizer) (summ : Summarizer)
    (ratio : ℚ) (t : SensoryTurn) : String :=
  match summ (compressPrompt tok ratio t) with
  | .ok compressed => compressed
  | .error _ =>
      let combined := "User: " ++ t.user_message ++ "\nAssistant: " ++ t.assistant_response
      tok.truncate combined (pyInt ((tok.count combined : ℚ) * ratio))

/-- Embedding of `ShortTermMemory.compress_and_store` (lines 92-114).  The
appended entry takes `entities` from `turn_data.get('entities', [])`; the
promoted sensory turn dict has no `entities` key, so the default `[]` is
used. -/
def ShortTermMemory.compress_and_store (tok : Tokenizer) (summ : Summarizer)
    (st : ShortTermMemory) (t : SensoryTurn) : ShortTermMemory × Option CondensedTurn :=
  let compressed := ShortTermMemory.compress_turn tok summ st.compression_ratio t
  let entry : CondensedTurn :=
    { turn_number := t.turn_number
      original_tokens := tok.count (t.user_message ++ " " ++ t.assistant_response)
      compressed_summary := compressed
      compressed_tokens := tok.count compressed
      entities := [] }
  let l := st.compressed_turns ++ [entry]
  if (l.length : Int) > st.max_turns then
    ({ st with compressed_turns := l.tail }, l.head?)
  else
    ({ st with compressed_turns := l }, none)

/-- The prompt built by `LongTermMemory._ultra_compress` (lines 230-241); on
the cascade path the input dict always has a `compressed_summary` key, so
`input_text` is the condensed summary. -/
def ultraPrompt (c : CondensedTurn) : String :=
  "Extract ONLY the most critical facts as bullet points:\n\n"
    ++ c.compressed_summary
    ++ "\n\nFormat (be extremely concise):\n- Asked: [1-2 words]\n- Answer: [key fact only]\n- Entities: [list]\n- Numbers/Decisions: [if any]\n\nMaximum 4 bullets, 100 tokens total.\n"

/-- Embedding of `LongTermMemory._ultra_compress` (lines 219-248): call the
Summarizer; on an exception fall back to truncation to 100 tokens. -/
def LongTermMemory.ultra_compress (tok : Tokenizer) (summ : Summarizer)
    (c : CondensedTurn) : String :=
  match summ (ultraPrompt c) with
  | .ok s => s
  | .error _ => tok.truncate c.compressed_summary 100

/-- Embedding of `LongTermMemory.archive_turn` (lines 183-217).  The memory id
is `len(self.memories)` at insertion time; on overflow the oldest entry is
popped (`pop(0)` binds it to `oldest` in the source, so the embedding returns
it) and its entities are removed from the index.  The popped list is
`memories ++ [entry]`, hence never empty. -/
def LongTermMemory.archive_turn (tok : Tokenizer) (summ : Summarizer)
    (lt : LongTermMemory) (c : CondensedTurn) : LongTermMemory × Option ArchivedMemory :=
  let ultra := LongTermMemory.ultra_compress tok summ c
  let memory_id := lt.memories.length
  let entry : ArchivedMemory :=
    { id := memory_id
      turn_number := c.turn_number
      ultra_summary := ultra
      entities := c.entities
      tokens := tok.count ultra }
  let mems := lt.memories ++ [entry]
  let idx := c.entities.foldl (fun a e => idxAppend a e memory_id) lt.entity_index
  if (mems.length : Int) > lt.max_memories then
    match mems.head? with
    | some oldest =>
        ({ memories := mems.tail
           max_memories := lt.max_memories
           entity_index := oldest.entities.foldl (fun a e => idxRemoveId a e oldest.id) idx },
         some oldest)
    | none => ({ memories := [], max_memories := lt.max_memories, entity_index := idx }, none)
  else
    ({ lt with memories := mems, entity_index := idx }, none)

/-- Embedding of `LongTermMemory.search_by_entity` (lines 250-253): ids from
the index, filtered by the bound check `mid < len(self.memories)`, then used
to index the memory list. -/
def LongTermMemory.search_by_entity (lt : LongTermMemory) (e : String) :
    List ArchivedMemory :=
  ((idxGet lt.entity_index e).filter (fun mid => mid < lt.memories.length)).map
    (fun mid => lt.memories.getD mid default)

/-- Embedding of `ThreeTierMemorySystem.store_turn` (lines 280-311): increment
the turn counter, store in sensory memory, and cascade promotions.  The
second component is the archived memory permanently discarded by this call
(`oldest` in the source), if any. -/
def ThreeTierMemorySystem.store_turn (tok : Tokenizer) (summ : Summarizer)
    (s : ThreeTierMemorySystem) (inp : TurnInput) :
    ThreeTierMemorySystem × Option ArchivedMemory :=
  let ct := s.current_turn + 1
  let td : TurnData :=
    { turn_number := ct
      user_message := inp.user_message
      assistant_response := inp.assistant_response
      tool_output := inp.tool_output
      entities := inp.entities }
  let sres := SensoryMemory.store tok s.sensory td
  match sres.2 with
  | none => ({ s with sensory := sres.1, current_turn := ct }, none)
  | some pt =>
      let stres := ShortTermMemory.compress_and_store tok summ s.short_term pt
      match stres.2 with
      | none =>
          ({ s with sensory := sres.1, short_term := stres.1, current_turn := ct }, none)
      | some c =>
          let ltres := LongTermMemory.archive_turn tok summ s.long_term c
          ({ s with
              sensory := sres.1
              short_term := stres.1
              long_term := ltres.1
              current_turn := ct },
           ltres.2)

/-- A sequence of `store_turn` calls. -/
def runTurns (tok : Tokenizer) (summ : Summarizer) :
    ThreeTierMemorySystem → List TurnInput → ThreeTierMemorySystem
  | s, [] => s
  | s, i :: is => runTurns tok summ (ThreeTierMemorySystem.store_turn tok summ s i).1 is

/-- Embedding of Python `sep.join(parts)`. -/
def joinSep (sep : String) : List String → String
  | [] => ""
  | [x] => x
  | x :: y :: ys => x ++ sep ++ joinSep sep (y :: ys)

/-- The per-turn block of `SensoryMemory.get_context` (lines 63-67). -/
def sensoryBlock (t : SensoryTurn) : String :=
  "\n[Turn " ++ toString t.turn_number ++ " - Recent]\nUser: " ++ t.user_message
    ++ "\nAssistant: " ++ t.assistant_response ++ "\n"

/-- Embedding of `SensoryMemory.get_context` (lines 56-68). -/
def SensoryMemory.get_context (sm : SensoryMemory) : String :=
  if sm.turns = [] then "" else joinSep "\n" (sm.turns.map sensoryBlock)

/-- The per-turn block of `ShortTermMemory.get_context` (lines 154-158). -/
def shortTermBlock (c : CondensedTurn) : String :=
  "\n[Turn " ++ toString c.turn_number ++ " - Compressed Summary]\n"
    ++ c.compressed_summary ++ "\nEntities: " ++ joinSep ", " c.entities ++ "\n"

/-- Embedding of `ShortTermMemory.get_context` (lines 147-159). -/
def ShortTermMemory.get_context (st : ShortTermMemory) : String :=
  if st.compressed_turns = [] then ""
  else joinSep "\n" (st.compressed_turns.map shortTermBlock)

/-- Embedding of `ThreeTierMemorySystem.get_recent_context` (lines 313-329). -/
def ThreeTierMemorySystem.get_recent_context (s : ThreeTierMemorySystem) : String :=
  "\n# Recent Conversation Context\n\n## Immediate Context (Verbatim)\n"
    ++ SensoryMemory.get_context s.sensory
    ++ "\n\n## Short-Term Context (Compressed)\n"
    ++ ShortTermMemory.get_context s.short_term
    ++ "\n"

/-- The snapshot document produced by `export_state` and consumed by
`load_state`: each top-level field is `Option` so that a snapshot with a
missing field (malformed import) is representable. -/
structure RawSnapshot where
  current_turn : Option Nat
  sensory : Option (List SensoryTurn)
  short_term : Option (List CondensedTurn)
  long_term : Option (List ArchivedMemory)
  entity_index : Option EntityIndex
deriving DecidableEq

/-- Embedding of `ThreeTierMemorySystem.export_state` (lines 348-358), up to
the JSON encoding (which round-trips these field values exactly). -/
def ThreeTierMemorySystem.export_state (s : ThreeTierMemorySystem) : RawSnapshot :=
  { current_turn := some s.current_turn
    sensory := some s.sensory.turns
    short_term := some s.short_term.compressed_turns
    long_term := some s.long_term.memories
    entity_index := some s.long_term.entity_index }

/-- Embedding of `ThreeTierMemorySystem.load_state` (lines 360-369): the five
fields are assigned one after the other; a missing field raises a `KeyError`
at that point, embedded as `.error` carrying the state the object is left in
(the assignments already performed are kept). -/
def ThreeTierMemorySystem.load_state (raw : RawSnapshot) (s : ThreeTierMemorySystem) :
    Except ThreeTierMemorySystem ThreeTierMemorySystem :=
  match raw.current_turn with
  | none => .error s
  | some ct =>
    let s1 := { s with current_turn := ct }
    match raw.sensory with
    | none => .error s1
    | some sv =>
      let s2 := { s1 with sensory := { s1.sensory with turns := sv } }
      match raw.short_term with
      | none => .error s2
      | some stv =>
        let s3 := { s2 with short_term := { s2.short_term with compressed_turns := stv } }
        match raw.long_term with
        | none => .error s3
        | some ltv =>
          let s4 := { s3 with long_term := { s3.long_term with memories := ltv } }
          match raw.entity_index with
          | none => .error s4
          | some idx =>
            .ok { s4 with long_term := { s4.long_term with entity_index := idx } }

/-- Embedding of `SensoryMemory.__init__` (lines 33-36).  The constructor can
raise in principle (embedded as `Except`), but performs no validation, so it
always succeeds. -/
def SensoryMemory.init (max_turns : Int) : Except Unit SensoryMemory :=
  .ok { turns := [], max_turns := max_turns }

/-- Embedding of `ShortTermMemory.__init__` (lines 86-90): no validation. -/
def ShortTermMemory.init (max_turns : Int) (compression_ratio : ℚ) :
    Except Unit ShortTermMemory :=
  .ok { compressed_turns := [], max_turns := max_turns, compression_ratio := compression_ratio }

/-- Embedding of `LongTermMemory.__init__` (lines 177-181): no validation. -/
def LongTermMemory.init (max_memories : Int) : Except Unit LongTermMemory :=
  .ok { memories := [], max_memories := max_memories, entity_index := [] }

/-- A fresh orchestrator state built from the three tier constructors with
the given capacities (the tier classes take these as parameters). -/
def initWith (sensory_max : Int) (short_max : Int) (ratio : ℚ) (long_max : Int) :
    ThreeTierMemorySystem :=
  { sensory := { turns := [], max_turns := sensory_max }
    short_term := { compressed_turns := [], max_turns := short_max, compression_ratio := ratio }
    long_term := { memories := [], max_memories := long_max, entity_index := [] }
    current_turn := 0 }

/-- Embedding of `ThreeTierMemorySystem.__init__` (lines 273-278): the tiers
are constructed with capacities 2, 5, 300 and compression ratio 0.5; no
validation is performed, so construction always succeeds. -/
def ThreeTierMemorySystem.init : Except Unit ThreeTierMemorySystem :=
  .ok (initWith 2 5 (1/2) 300)

/-- The fixed stop-word set of `HybridRetriever._semantic_similarity`
(lines 176-178). -/
def stopWords : Finset String :=
  (["the", "a", "an", "and", "or", "but", "in", "on", "at",
    "to", "for", "of", "with", "by", "from", "as", "is", "was",
    "are", "were", "been", "be", "have", "has", "had"] : List String).toFinset

/-- Python `set(text.lower().split())`: lower-case, split on whitespace runs
discarding empty pieces, collect into a set. -/
def pyWordSet (text : String) : Finset String :=
  ((text.toLower.split Char.isWhitespace).filter (fun w => !w.isEmpty)).toFinset

/-- Embedding of `HybridRetriever._semantic_similarity` (lines 164-189):
word-set Jaccard similarity after stop-word removal. -/
def HybridRetriever.semantic_similarity (text1 text2 : String) : ℚ :=
  let words1 := pyWordSet text1 \ stopWords
  let words2 := pyWordSet text2 \ stopWords
  if words1 = ∅ ∨ words2 = ∅ then 0
  else
    let intersection := (words1 ∩ words2).card
    let union := (words1 ∪ words2).card
    if union > 0 then (intersection : ℚ) / union else 0

/-- Embedding of `HybridRetriever._entity_overlap` (lines 191-212). -/
def HybridRetriever.entity_overlap (entities1 entities2 : List String) : ℚ :=
  if entities2 = [] then 1/2
  else
    let set1 := (entities1.map String.toLower).toFinset
    let set2 := (entities2.map String.toLower).toFinset
    if set1 = ∅ then 0
    else
      let overlap := (set1 ∩ set2).card
      (overlap : ℚ) / set2.card

/-- Embedding of `HybridRetriever._recency_score` (lines 214-231): exponential
decay with scale 5, idealizing the float computation over `ℝ`. -/
noncomputable def HybridRetriever.recency_score (turn_number current_turn : Nat) : ℝ :=
  Real.exp (-(((current_turn : ℝ) - (turn_number : ℝ)) / 5))

/-- The scoring weights dict of `HybridRetriever`. -/
structure RetrieverWeights where
  semantic : ℚ
  entity : ℚ
  recency : ℚ
deriving DecidableEq, Repr

/-- The default weights of `HybridRetriever.__init__` (lines 35-39). -/
def defaultWeights : RetrieverWeights := { semantic := 4/10, entity := 3/10, recency := 3/10 }

/-- Embedding of `HybridRetriever.__init__` (lines 25-39): store the supplied
weights or the default; no validation is performed, so construction always
succeeds (`Except` embeds the possibility of raising). -/
def HybridRetriever.init (weights : Option RetrieverWeights) : Except Unit RetrieverWeights :=
  .ok (weights.getD defaultWeights)

/-- The clues dict consumed by `retrieve_context` (produced by the external
ClueGenerator). -/
structure Clues where
  clues : String
  entities : List String
deriving DecidableEq, Repr

/-- The uniform candidate record built by `_get_candidate_memories`
(lines 102-119). -/
structure Candidate where
  turn_number : Nat
  summary : String
  entities : List String
  tokens : Nat
  source : String
deriving DecidableEq, Repr

/-- Embedding of `HybridRetriever._get_candidate_memories` (lines 89-121):
short-term turns first, then long-term memories, each in storage order. -/
def HybridRetriever.get_candidate_memories (s : ThreeTierMemorySystem) : List Candidate :=
  s.short_term.compressed_turns.map
      (fun t => { turn_number := t.turn_number, summary := t.compressed_summary,
                  entities := t.entities, tokens := t.compressed_tokens,
                  source := "short_term" })
    ++ s.long_term.memories.map
      (fun m => { turn_number := m.turn_number, summary := m.ultra_summary,
                  entities := m.entities, tokens := m.tokens,
                  source := "long_term" })

/-- Embedding of `HybridRetriever._compute_hybrid_score` (lines 123-162). -/
noncomputable def HybridRetriever.compute_hybrid_score (w : RetrieverWeights)
    (current_turn : Nat) (c : Candidate) (clues : Clues) : ℝ :=
  (w.semantic : ℝ) * (HybridRetriever.semantic_similarity c.summary clues.clues : ℝ)
    + (w.entity : ℝ) * (HybridRetriever.entity_overlap c.entities clues.entities : ℝ)
    + (w.recency : ℝ) * HybridRetriever.recency_score c.turn_number current_turn

/-- Embedding of `scored_candidates.sort(key=lambda x: -x[1])` (line 76):
Python list.sort is a stable sort, ascending in the key `-score`, i.e. the
unique stable sort putting higher scores first.  `List.insertionSort` with
the total preorder `score b ≤ score a` is exactly that stable sort. -/
noncomputable def sortByScoreDesc {α : Type} (f : α → ℝ) (l : List α) : List α :=
  List.insertionSort (fun a b => f b ≤ f a) l

/-- Embedding of `HybridRetriever.retrieve_context` (lines 41-87): score every
candidate, sort by descending score, return the first `max_results`. -/
noncomputable def HybridRetriever.retrieve_context (w : RetrieverWeights)
    (s : ThreeTierMemorySystem) (clues : Clues) (max_results : Nat) : List Candidate :=
  let candidates := HybridRetriever.get_candidate_memories s
  if candidates = [] then []
  else
    (sortByScoreDesc (fun c => HybridRetriever.compute_hybrid_score w s.current_turn c clues)
        candidates).take max_results

/-- C2: Export/import round trip: for every orchestrator state (in particular
every reachable one), loading the snapshot produced by `export_state` yields
exactly the prior state — Immediate-tier entries, Condensed-tier entries,
Archive-tier memories, Entity Index and turn counter are all restored. -/
theorem export_import_round_trip (s : ThreeTierMemorySystem) :
    ThreeTierMemorySystem.load_state (ThreeTierMemorySystem.export_state s) s = .ok s :=
  rfl

/-- C7 counterexample: constructing a tier with non-positive maximum occupancy
(0 or -1) and constructing the Hybrid Retriever with a negative weight all
return normally (`.ok`) — no error is raised at construction time, refuting
the claim. -/
theorem config_validation_cex :
    SensoryMemory.init 0 = .ok { turns := [], max_turns := 0 }
    ∧ SensoryMemory.init (-1) = .ok { turns := [], max_turns := -1 }
    ∧ LongTermMemory.init 0 = .ok { memories := [], max_memories := 0, entity_index := [] }
    ∧ HybridRetriever.init (some { semantic := -1, entity := 3/10, recency := 3/10 })
        = .ok { semantic := -1, entity := 3/10, recency := 3/10 } :=
  ⟨rfl, rfl, rfl, rfl⟩

/-- C7 amended: no configuration validation is performed at construction time:
every capacity (including non-positive ones) and every weights value
(including negative weights) is accepted, and every constructor returns
normally. -/
theorem constructors_never_raise :
    (∀ m : Int, SensoryMemory.init m = .ok { turns := [], max_turns := m })
    ∧ (∀ (m : Int) (r : ℚ), ShortTermMemory.init m r
        = .ok { compressed_turns := [], max_turns := m, compression_ratio := r })
    ∧ (∀ m : Int, LongTermMemory.init m
        = .ok { memories := [], max_memories := m, entity_index := [] })
    ∧ (∀ w, HybridRetriever.init w = .ok (w.getD defaultWeights))
    ∧ ThreeTierMemorySystem.init = .ok (initWith 2 5 (1/2) 300) :=
  ⟨fun _ => rfl, fun _ _ => rfl, fun _ => rfl, fun _ => rfl, rfl⟩

/-- C6 counterexample: loading a malformed snapshot that has `current_turn`
but is missing the remaining fields surfaces an error, yet the orchestrator
state has already been mutated (its turn counter is overwritten), so import
is not all-or-nothing. -/
theorem import_atomicity_cex :
    ThreeTierMemorySystem.load_state
        { current_turn := some 7, sensory := none, short_term := none,
          long_term := none, entity_index := none }
        (initWith 2 5 (1/2) 300)
      = .error ⟨⟨[], 2⟩, ⟨[], 5, 1/2⟩, ⟨[], 300, []⟩, 7⟩
    ∧ (⟨⟨[], 2⟩, ⟨[], 5, 1/2⟩, ⟨[], 300, []⟩, 7⟩ : ThreeTierMemorySystem)
        ≠ initWith 2 5 (1/2) 300 := by
  refine ⟨rfl, fun h => ?_⟩
  have h7 := congrArg ThreeTierMemorySystem.current_turn h
  simp [initWith] at h7

/-- C6 amended: `load_state` surfaces an error on a snapshot with a missing
field, but the field assignments preceding the missing field have already
been applied (assignment order: turn counter, Immediate tier, Condensed tier,
Archive tier, Entity Index); the prior state is left fully unchanged only
when the very first field is missing.  With all fields present the import
succeeds and replaces all five components. -/
theorem load_state_missing_field (raw : RawSnapshot) (s : ThreeTierMemorySystem) :
    (raw.current_turn = none → ThreeTierMemorySystem.load_state raw s = .error s)
    ∧ (∀ ct, raw.current_turn = some ct → raw.sensory = none →
        ThreeTierMemorySystem.load_state raw s
          = .error ⟨s.sensory, s.short_term, s.long_term, ct⟩)
    ∧ (∀ ct sv, raw.current_turn = some ct → raw.sensory = some sv →
        raw.short_term = none →
        ThreeTierMemorySystem.load_state raw s
          = .error ⟨⟨sv, s.sensory.max_turns⟩, s.short_term, s.long_term, ct⟩)
    ∧ (∀ ct sv stv, raw.current_turn = some ct → raw.sensory = some sv →
        raw.short_term = some stv → raw.long_term = none →
        ThreeTierMemorySystem.load_state raw s
          = .error ⟨⟨sv, s.sensory.max_turns⟩,
                    ⟨stv, s.short_term.max_turns, s.short_term.compression_ratio⟩,
                    s.long_term, ct⟩)
    ∧ (∀ ct sv stv ltv, raw.current_turn = some ct → raw.sensory = some sv →
        raw.short_term = some stv → raw.long_term = some ltv → raw.entity_index = none →
        ThreeTierMemorySystem.load_state raw s
          = .error ⟨⟨sv, s.sensory.max_turns⟩,
                    ⟨stv, s.short_term.max_turns, s.short_term.compression_ratio⟩,
                    ⟨ltv, s.long_term.max_memories, s.long_term.entity_index⟩, ct⟩)
    ∧ (∀ ct sv stv ltv idx, raw.current_turn = some ct → raw.sensory = some sv →
        raw.short_term = some stv → raw.long_term = some ltv → raw.entity_index = some idx →
        ThreeTierMemorySystem.load_state raw s
          = .ok ⟨⟨sv, s.sensory.max_turns⟩,
                 ⟨stv, s.short_term.max_turns, s.short_term.compression_ratio⟩,
                 ⟨ltv, s.long_term.max_memories, idx⟩, ct⟩) := by
  refine ⟨?_, ?_, ?_, ?_, ?_, ?_⟩
  · intro h1
    simp [ThreeTierMemorySystem.load_state, h1]
  · intro ct h1 h2
    simp [ThreeTierMemorySystem.load_state, h1, h2]
  · intro ct sv h1 h2 h3
    simp [ThreeTierMemorySystem.load_state, h1, h2, h3]
  · intro ct sv stv h1 h2 h3 h4
    simp [ThreeTierMemorySystem.load_state, h1, h2, h3, h4]
  · intro ct sv stv ltv h1 h2 h3 h4 h5
    simp [ThreeTierMemorySystem.load_state, h1, h2, h3, h4, h5]
  · intro ct sv stv ltv idx h1 h2 h3 h4 h5
    simp [ThreeTierMemorySystem.load_state, h1, h2, h3, h4, h5]

/-- Witness for the amended C6 theorem: at the fully-missing snapshot the
error is surfaced with the prior state intact. -/
theorem load_state_missing_field_witness :
    ThreeTierMemorySystem.load_state
        { current_turn := none, sensory := none, short_term := none,
          long_term := none, entity_index := none }
        (initWith 2 5 (1/2) 300)
      = .error (initWith 2 5 (1/2) 300) :=
  (load_state_missing_field
      { current_turn := none, sensory := none, short_term := none,
        long_term := none, entity_index := none }
      (initWith 2 5 (1/2) 300)).1 rfl

/-- C10: `search_by_entity` is total and safe: every returned entry is a
currently resident memory of the Archive Tier (each index id is bound-checked
before indexing), and an entity absent from the index yields the empty
list. -/
theorem search_by_entity_total (lt : LongTermMemory) (e : String) :
    (∀ m ∈ LongTermMemory.search_by_entity lt e, m ∈ lt.memories)
    ∧ ((∀ p ∈ lt.entity_index, p.1 ≠ e) → LongTermMemory.search_by_entity lt e = []) := by
  constructor
  · intro m hm
    simp only [LongTermMemory.search_by_entity, List.mem_map, List.mem_filter] at hm
    obtain ⟨mid, ⟨_, hlt⟩, rfl⟩ := hm
    have hlt' : mid < lt.memories.length := by
      simpa using hlt
    rw [List.getD_eq_getElem lt.memories default hlt']
    exact List.getElem_mem hlt'
  · intro habs
    have hfind : lt.entity_index.find? (fun p => p.1 == e) = none := by
      rw [List.find?_eq_none]
      intro p hp
      simpa using habs p hp
    simp [LongTermMemory.search_by_entity, idxGet, hfind]

/-- Witness for C10: on a state whose index has one entry for entity q, the
lookup of the absent entity x returns the empty list. -/
theorem search_by_entity_total_witness :
    LongTermMemory.search_by_entity
        { memories := [{ id := 0, turn_number := 1, ultra_summary := "s",
                         entities := ["q"], tokens := 1 }],
          max_memories := 300, entity_index := [("q", [0])] } "x"
      = [] :=
  (search_by_entity_total
      { memories := [{ id := 0, turn_number := 1, ultra_summary := "s",
                       entities := ["q"], tokens := 1 }],
        max_memories := 300, entity_index := [("q", [0])] } "x").2 (by decide)

/-- C5: the entity-overlap component: 0.5 on an entity-free query; 0 for an
entity-free candidate when the query has entities; otherwise the ratio of
case-insensitively matched query entities, always within the unit
interval. -/
theorem entity_overlap_spec (entities1 entities2 : List String) :
    (entities2 = [] → HybridRetriever.entity_overlap entities1 entities2 = 1/2)
    ∧ (entities2 ≠ [] → entities1 = [] →
        HybridRetriever.entity_overlap entities1 entities2 = 0)
    ∧ (entities2 ≠ [] → entities1 ≠ [] →
        HybridRetriever.entity_overlap entities1 entities2 =
          (((entities1.map String.toLower).toFinset
              ∩ (entities2.map String.toLower).toFinset).card : ℚ)
            / ((entities2.map String.toLower).toFinset.card : ℚ))
    ∧ 0 ≤ HybridRetriever.entity_overlap entities1 entities2
    ∧ HybridRetriever.entity_overlap entities1 entities2 ≤ 1 := by
  have hfin : ∀ l : List String, l ≠ [] → (l.map String.toLower).toFinset ≠ ∅ := by
    intro l hl
    simp [List.toFinset_eq_empty_iff, hl]
  refine ⟨?_, ?_, ?_, ?_, ?_⟩
  · intro h2
    simp [HybridRetriever.entity_overlap, h2]
  · intro h2 h1
    subst h1
    simp [HybridRetriever.entity_overlap, h2]
  · intro h2 h1
    simp [HybridRetriever.entity_overlap, h2, hfin entities1 h1]
  · by_cases h2 : entities2 = []
    · norm_num [HybridRetriever.entity_overlap, h2]
    · by_cases h1 : (entities1.map String.toLower).toFinset = (∅ : Finset String)
      · simp [HybridRetriever.entity_overlap, h2, h1]
      · simp only [HybridRetriever.entity_overlap, if_neg h2, if_neg h1]
        positivity
  · by_cases h2 : entities2 = []
    · norm_num [HybridRetriever.entity_overlap, h2]
    · by_cases h1 : (entities1.map String.toLower).toFinset = (∅ : Finset String)
      · simp [HybridRetriever.entity_overlap, h2, h1]
      · have hpos : (0 : ℚ) < ((entities2.map String.toLower).toFinset.card : ℚ) := by
          have hne : (entities2.map String.toLower).toFinset.Nonempty := by
            rw [Finset.nonempty_iff_ne_empty]
            exact hfin entities2 h2
          exact_mod_cast Finset.card_pos.mpr hne
        simp only [HybridRetriever.entity_overlap, if_neg h2, if_neg h1]
        rw [div_le_one hpos]
        exact_mod_cast Finset.card_le_card Finset.inter_subset_right

/-- Witness for C5: a concrete query with two entities and a candidate
matching one of them case-insensitively. -/
theorem entity_overlap_spec_witness :
    HybridRetriever.entity_overlap ["A"] ["a", "B"]
      = ((((["A"] : List String).map String.toLower).toFinset
            ∩ ((["a", "B"] : List String).map String.toLower).toFinset).card : ℚ)
          / ((((["a", "B"] : List String).map String.toLower).toFinset.card : ℚ)) :=
  (entity_overlap_spec ["A"] ["a", "B"]).2.2.1 (by decide) (by decide)

/-- The sensory turn record that `store_turn` inserts for input `inp` on
state `s` (statement helper naming the record built at lines 40-49 with the
turn number assigned at line 286). -/
def newSensoryTurn (tok : Tokenizer) (s : ThreeTierMemorySystem) (inp : TurnInput) :
    SensoryTurn :=
  { turn_number := s.current_turn + 1
    user_message := inp.user_message
    assistant_response := inp.assistant_response
    tool_output := inp.tool_output
    tokens := tok.count (inp.user_message ++ " " ++ inp.assistant_response) }

/-- C3 counterexample: a Summarizer that returns normally but produces no
usable result (the empty string) does not trigger the truncation fallback:
the compressed text stored for the turn is the empty string, which differs
from the deterministic truncation of the source text to the configured
target length (half of 28 tokens under the length tokenizer). -/
theorem compression_fallback_cex :
    ShortTermMemory.compress_turn
        { count := fun s => s.length, truncate := fun s n => s.take n.toNat }
        (fun _ => .ok "") (1/2)
        { turn_number := 1, user_message := "hello", assistant_response := "world",
          tool_output := "", tokens := 10 }
      = ""
    ∧ Tokenizer.truncate
        { count := fun s => s.length, truncate := fun s n => s.take n.toNat }
        ("User: " ++ "hello" ++ "\nAssistant: " ++ "world")
        (pyInt ((Tokenizer.count
            { count := fun s => s.length, truncate := fun s n => s.take n.toNat }
            ("User: " ++ "hello" ++ "\nAssistant: " ++ "world") : ℚ) * (1/2)))
      = "User: hello\nAs"
    ∧ ("" : String) ≠ "User: hello\nAs" := by
  refine ⟨rfl, ?_, by decide⟩
  have hlen : Tokenizer.count
      { count := fun s => s.length, truncate := fun s n => s.take n.toNat }
      ("User: " ++ "hello" ++ "\nAssistant: " ++ "world") = 28 := by decide
  rw [hlen]
  have htarget : pyInt (((28 : ℕ) : ℚ) * (1/2)) = 14 := by norm_num [pyInt]
  rw [htarget]
  decide

/-- C3 amended: the truncation fallback applies exactly when the Summarizer
raises: the condensed text is then the deterministic truncation of the
combined source text to the configured target length, and likewise the
archive text is the truncation of the condensed summary to 100 tokens; a
result returned by the Summarizer (even an empty one) is stored as-is.
`store_turn` is total (no error reaches the caller): it always increments the
turn counter and records the new turn in the Immediate tier (which then may
promote it onward). -/
theorem compression_failure_fallback (tok : Tokenizer) (summ : Summarizer)
    (ratio : ℚ) (t : SensoryTurn) (c : CondensedTurn)
    (s : ThreeTierMemorySystem) (inp : TurnInput) :
    (summ (compressPrompt tok ratio t) = .error () →
      ShortTermMemory.compress_turn tok summ ratio t
        = tok.truncate ("User: " ++ t.user_message ++ "\nAssistant: " ++ t.assistant_response)
            (pyInt ((tok.count ("User: " ++ t.user_message ++ "\nAssistant: "
                ++ t.assistant_response) : ℚ) * ratio)))
    ∧ (∀ out, summ (compressPrompt tok ratio t) = .ok out →
        ShortTermMemory.compress_turn tok summ ratio t = out)
    ∧ (summ (ultraPrompt c) = .error () →
        LongTermMemory.ultra_compress tok summ c = tok.truncate c.compressed_summary 100)
    ∧ (ThreeTierMemorySystem.store_turn tok summ s inp).1.current_turn = s.current_turn + 1
    ∧ ((ThreeTierMemorySystem.store_turn tok summ s inp).1.sensory.turns
          = s.sensory.turns ++ [newSensoryTurn tok s inp]
        ∨ (ThreeTierMemorySystem.store_turn tok summ s inp).1.sensory.turns
          = (s.sensory.turns ++ [newSensoryTurn tok s inp]).tail) := by
  refine ⟨?_, ?_, ?_, ?_, ?_⟩
  · intro h
    simp [ShortTermMemory.compress_turn, h]
  · intro out h
    simp [ShortTermMemory.compress_turn, h]
  · intro h
    simp [LongTermMemory.ultra_compress, h]
  · simp only [ThreeTierMemorySystem.store_turn, SensoryMemory.store]
    split <;> (try split) <;> (try split) <;> rfl
  · simp only [ThreeTierMemorySystem.store_turn, SensoryMemory.store]
    split <;> (try split) <;> (try split) <;>
      first
        | exact Or.inl rfl
        | exact Or.inr rfl

/-- Witness for the amended C3 theorem: with a Summarizer that raises, both
compression stages produce the deterministic truncation fallback on concrete
inputs. -/
theorem compression_failure_fallback_witness :
    ShortTermMemory.compress_turn
        { count := fun s => s.length, truncate := fun s n => s.take n.toNat }
        (fun _ => .error ()) (1/2)
        { turn_number := 1, user_message := "hello", assistant_response := "world",
          tool_output := "", tokens := 10 }
      = Tokenizer.truncate
          { count := fun s => s.length, truncate := fun s n => s.take n.toNat }
          ("User: " ++ "hello" ++ "\nAssistant: " ++ "world")
          (pyInt ((Tokenizer.count
              { count := fun s => s.length, truncate := fun s n => s.take n.toNat }
              ("User: " ++ "hello" ++ "\nAssistant: " ++ "world") : ℚ) * (1/2)))
    ∧ LongTermMemory.ultra_compress
        { count := fun s => s.length, truncate := fun s n => s.take n.toNat }
        (fun _ => .error ())
        { turn_number := 1, original_tokens := 10, compressed_summary := "sum",
          compressed_tokens := 3, entities := [] }
      = Tokenizer.truncate
          { count := fun s => s.length, truncate := fun s n => s.take n.toNat }
          "sum" 100 :=
  ⟨(compression_failure_fallback
      { count := fun s => s.length, truncate := fun s n => s.take n.toNat }
      (fun _ => .error ()) (1/2)
      { turn_number := 1, user_message := "hello", assistant_response := "world",
        tool_output := "", tokens := 10 }
      { turn_number := 1, original_tokens := 10, compressed_summary := "sum",
        compressed_tokens := 3, entities := [] }
      (initWith 2 5 (1/2) 300)
      { user_message := "u", assistant_response := "a", tool_output := "",
        entities := [] }).1 rfl,
   (compression_failure_fallback
      { count := fun s => s.length, truncate := fun s n => s.take n.toNat }
      (fun _ => .error ()) (1/2)
      { turn_number := 1, user_message := "hello", assistant_response := "world",
        tool_output := "", tokens := 10 }
      { turn_number := 1, original_tokens := 10, compressed_summary := "sum",
        compressed_tokens := 3, entities := [] }
      (initWith 2 5 (1/2) 300)
      { user_message := "u", assistant_response := "a", tool_output := "",
        entities := [] }).2.2.1 rfl⟩

/-- Invariant: under ingest-only reachability the Entity Index is empty and
every condensed or archived entry has an empty entity list — because
`SensoryMemory.store` rebuilds the turn dict without its `entities` key, the
promotion into the Condensed tier always reads the default `[]`. -/
def NoEntitiesInv (s : ThreeTierMemorySystem) : Prop :=
  s.long_term.entity_index = []
  ∧ (∀ m ∈ s.long_term.memories, m.entities = [])
  ∧ (∀ c ∈ s.short_term.compressed_turns, c.entities = [])

/-- The Condensed tier only ever stores entries with empty entity lists, both
in the tier and in the promoted entry it hands onward. -/
theorem compress_and_store_entities (tok : Tokenizer) (summ : Summarizer)
    (st : ShortTermMemory) (t : SensoryTurn)
    (h : ∀ c ∈ st.compressed_turns, c.entities = []) :
    (∀ c ∈ (ShortTermMemory.compress_and_store tok summ st t).1.compressed_turns,
        c.entities = [])
    ∧ (∀ c, (ShortTermMemory.compress_and_store tok summ st t).2 = some c →
        c.entities = []) := by
  simp only [ShortTermMemory.compress_and_store]
  have hall : ∀ c ∈ st.compressed_turns ++
      [{ turn_number := t.turn_number,
         original_tokens := tok.count (t.user_message ++ " " ++ t.assistant_response),
         compressed_summary := ShortTermMemory.compress_turn tok summ st.compression_ratio t,
         compressed_tokens :=
           tok.count (ShortTermMemory.compress_turn tok summ st.compression_ratio t),
         entities := ([] : List String) }], c.entities = [] := by
    intro c hc
    rcases List.mem_append.1 hc with hc | hc
    · exact h c hc
    · rcases List.mem_singleton.1 hc with rfl
      rfl
  split
  · refine ⟨fun c hc => hall c ((List.tail_sublist _).subset hc), fun c hc => ?_⟩
    exact hall c (List.mem_of_mem_head? (Option.mem_def.2 hc))
  · refine ⟨fun c hc => hall c hc, fun c hc => ?_⟩
    simp at hc

/-- Archiving an entry with an empty entity list leaves the Entity Index
unchanged, and all resident memories keep empty entity lists. -/
theorem archive_turn_entities (tok : Tokenizer) (summ : Summarizer)
    (lt : LongTermMemory) (c : CondensedTurn)
    (hidx : lt.entity_index = []) (hmem : ∀ m ∈ lt.memories, m.entities = [])
    (hc : c.entities = []) :
    (LongTermMemory.archive_turn tok summ lt c).1.entity_index = []
    ∧ ∀ m ∈ (LongTermMemory.archive_turn tok summ lt c).1.memories, m.entities = [] := by
  simp only [LongTermMemory.archive_turn, hc, List.foldl_nil]
  have hall : ∀ m ∈ lt.memories ++
      [{ id := lt.memories.length, turn_number := c.turn_number,
         ultra_summary := LongTermMemory.ultra_compress tok summ c,
         entities := ([] : List String),
         tokens := tok.count (LongTermMemory.ultra_compress tok summ c) }],
      m.entities = [] := by
    intro m hm
    rcases List.mem_append.1 hm with hm | hm
    · exact hmem m hm
    · rcases List.mem_singleton.1 hm with rfl
      rfl
  split
  · split
    · rename_i oldest heq
      have hold : oldest.entities = [] :=
        hall oldest (List.mem_of_mem_head? (Option.mem_def.2 heq))
      rw [hold]
      exact ⟨hidx, fun m hm => hall m ((List.tail_sublist _).subset hm)⟩
    · exact ⟨hidx, fun m hm => absurd hm (List.not_mem_nil m)⟩
  · exact ⟨hidx, fun m hm => hall m hm⟩

/-- One `store_turn` call preserves `NoEntitiesInv`. -/
theorem store_turn_no_entities (tok : Tokenizer) (summ : Summarizer)
    (s : ThreeTierMemorySystem) (inp : TurnInput) (h : NoEntitiesInv s) :
    NoEntitiesInv (ThreeTierMemorySystem.store_turn tok summ s inp).1 := by
  obtain ⟨hidx, hmem, hshort⟩ := h
  simp only [ThreeTierMemorySystem.store_turn]
  split
  · exact ⟨hidx, hmem, hshort⟩
  · rename_i pt heq1
    split
    · rename_i heq2
      exact ⟨hidx, hmem,
        fun c hc => (compress_and_store_entities tok summ s.short_term pt hshort).1 c hc⟩
    · rename_i c2 heq2
      have hc2 : c2.entities = [] :=
        (compress_and_store_entities tok summ s.short_term pt hshort).2 c2 heq2
      have harch := archive_turn_entities tok summ s.long_term c2 hidx hmem hc2
      exact ⟨harch.1, harch.2,
        fun c hc => (compress_and_store_entities tok summ s.short_term pt hshort).1 c hc⟩

/-- `NoEntitiesInv` holds for every ingest-only reachable state. -/
theorem runTurns_no_entities (tok : Tokenizer) (summ : Summarizer)
    (s : ThreeTierMemorySystem) (inputs : List TurnInput) (h : NoEntitiesInv s) :
    NoEntitiesInv (runTurns tok summ s inputs) := by
  induction inputs generalizing s with
  | nil => exact h
  | cons i is ih => exact ih _ (store_turn_no_entities tok summ s i h)

/-- C1: entity-index consistency after every sequence of `store_turn` calls
from a fresh orchestrator: an id is listed in the Entity Index under entity e
iff a resident archived memory has that id and lists e, and
`search_by_entity e` returns exactly the resident archived memories whose
entity set contains e.  (Both sides hold vacuously: the sensory tier drops
the `entities` field on promotion, so under ingest-only reachability the
index stays empty and every archived memory has an empty entity list.) -/
theorem entity_index_consistency (tok : Tokenizer) (summ : Summarizer)
    (a b : Int) (r : ℚ) (cmax : Int) (inputs : List TurnInput) :
    (∀ e mid,
        mid ∈ idxGet (runTurns tok summ (initWith a b r cmax) inputs).long_term.entity_index e
          ↔ ∃ m ∈ (runTurns tok summ (initWith a b r cmax) inputs).long_term.memories,
              m.id = mid ∧ e ∈ m.entities)
    ∧ ∀ e,
        LongTermMemory.search_by_entity
            (runTurns tok summ (initWith a b r cmax) inputs).long_term e
          = (runTurns tok summ (initWith a b r cmax) inputs).long_term.memories.filter
              (fun m => m.entities.contains e) := by
  have hinv := runTurns_no_entities tok summ (initWith a b r cmax) inputs
    ⟨rfl, fun m hm => absurd hm (List.not_mem_nil m),
     fun c hc => absurd hc (List.not_mem_nil c)⟩
  obtain ⟨hidx, hmem, -⟩ := hinv
  constructor
  · intro e mid
    constructor
    · intro hmid
      rw [hidx] at hmid
      simp [idxGet] at hmid
    · rintro ⟨m, hm, -, he⟩
      rw [hmem m hm] at he
      simp at he
  · intro e
    have hfil : (runTurns tok summ (initWith a b r cmax) inputs).long_term.memories.filter
        (fun m => m.entities.contains e) = [] := by
      rw [List.filter_eq_nil_iff]
      intro m hm
      simp [hmem m hm]
    rw [hfil, LongTermMemory.search_by_entity, hidx]
    simp [idxGet]

/-- The string `s` contains the given strings as (non-overlapping) substrings
in the given order. -/
def containsInOrder (s : String) : List String → Prop
  | [] => True
  | x :: xs => ∃ a b, s = a ++ x ++ b ∧ containsInOrder b xs

/-- Prefixing preserves ordered containment. -/
theorem containsInOrder_prepend (p s : String) (l : List String)
    (h : containsInOrder s l) : containsInOrder (p ++ s) l := by
  cases l with
  | nil => trivial
  | cons x xs =>
    obtain ⟨a, b, hs, hb⟩ := h
    exact ⟨p ++ a, b, by simp [hs, String.append_assoc], hb⟩

/-- Suffixing preserves ordered containment. -/
theorem containsInOrder_append_right (s p : String) (l : List String)
    (h : containsInOrder s l) : containsInOrder (s ++ p) l := by
  induction l generalizing s with
  | nil => trivial
  | cons x xs ih =>
    obtain ⟨a, b, hs, hb⟩ := h
    exact ⟨a, b ++ p, by simp [hs, String.append_assoc], ih b hb⟩

/-- Ordered containment composes over concatenation. -/
theorem containsInOrder_append (s1 s2 : String) (l1 l2 : List String)
    (h1 : containsInOrder s1 l1) (h2 : containsInOrder s2 l2) :
    containsInOrder (s1 ++ s2) (l1 ++ l2) := by
  induction l1 generalizing s1 with
  | nil => simpa using containsInOrder_prepend s1 s2 l2 h2
  | cons x xs ih =>
    obtain ⟨a, b, hs, hb⟩ := h1
    exact ⟨a, b ++ s2, by simp [hs, String.append_assoc], ih b hb⟩

/-- A sensory context block contains the turn texts verbatim in order. -/
theorem containsInOrder_sensoryBlock (t : SensoryTurn) :
    containsInOrder (sensoryBlock t) [t.user_message, t.assistant_response] :=
  ⟨"\n[Turn " ++ toString t.turn_number ++ " - Recent]\nUser: ",
   "\nAssistant: " ++ t.assistant_response ++ "\n",
   by simp [sensoryBlock, String.append_assoc],
   "\nAssistant: ", "\n", by simp [String.append_assoc], trivial⟩

/-- The user and assistant texts of sensory turns, in order. -/
def sensoryTexts : List SensoryTurn → List String
  | [] => []
  | t :: ts => t.user_message :: t.assistant_response :: sensoryTexts ts

/-- The joined sensory context contains all turn texts verbatim in order. -/
theorem containsInOrder_joinBlocks (ts : List SensoryTurn) :
    containsInOrder (joinSep "\n" (ts.map sensoryBlock)) (sensoryTexts ts) := by
  induction ts with
  | nil => trivial
  | cons t rest ih =>
    cases rest with
    | nil => simpa [joinSep, sensoryTexts] using containsInOrder_sensoryBlock t
    | cons t2 ts2 =>
      have h1 : containsInOrder (sensoryBlock t ++ "\n")
          [t.user_message, t.assistant_response] :=
        containsInOrder_append_right _ _ _ (containsInOrder_sensoryBlock t)
      have h12 := containsInOrder_append _ _ _ _ h1 ih
      simpa [joinSep, sensoryTexts, String.append_assoc] using h12

/-- The user and assistant texts of the ingested inputs, in order. -/
def turnTexts : List TurnInput → List String
  | [] => []
  | i :: is => i.user_message :: i.assistant_response :: turnTexts is

/-- The sensory turns that a cascade-free run starting at turn `base` builds
for the given inputs. -/
def mkSensoryTurns (tok : Tokenizer) : Nat → List TurnInput → List SensoryTurn
  | _, [] => []
  | base, i :: is =>
      { turn_number := base + 1, user_message := i.user_message,
        assistant_response := i.assistant_response, tool_output := i.tool_output,
        tokens := tok.count (i.user_message ++ " " ++ i.assistant_response) }
        :: mkSensoryTurns tok (base + 1) is

theorem length_mkSensoryTurns (tok : Tokenizer) (base : Nat) (inputs : List TurnInput) :
    (mkSensoryTurns tok base inputs).length = inputs.length := by
  induction inputs generalizing base with
  | nil => rfl
  | cons i is ih => simp [mkSensoryTurns, ih]

theorem mkSensoryTurns_append_single (tok : Tokenizer) (base : Nat)
    (done : List TurnInput) (i : TurnInput) :
    mkSensoryTurns tok base (done ++ [i])
      = mkSensoryTurns tok base done ++
        [{ turn_number := base + done.length + 1, user_message := i.user_message,
           assistant_response := i.assistant_response, tool_output := i.tool_output,
           tokens := tok.count (i.user_message ++ " " ++ i.assistant_response) }] := by
  induction done generalizing base with
  | nil => simp [mkSensoryTurns]
  | cons d ds ih =>
    simp only [List.cons_append, mkSensoryTurns, List.append_eq, List.length_cons]
    rw [ih (base + 1)]
    have hn : base + 1 + ds.length + 1 = base + (ds.length + 1) + 1 := by omega
    rw [hn]

theorem sensoryTexts_mkSensoryTurns (tok : Tokenizer) (base : Nat)
    (inputs : List TurnInput) :
    sensoryTexts (mkSensoryTurns tok base inputs) = turnTexts inputs := by
  induction inputs generalizing base with
  | nil => rfl
  | cons i is ih => simp [mkSensoryTurns, sensoryTexts, turnTexts, ih]

/-- A run that stays within the Immediate-tier capacity only accumulates
sensory turns; the other tiers and the index stay empty. -/
theorem runTurns_small (tok : Tokenizer) (summ : Summarizer) (a b : Int) (r : ℚ)
    (cmax : Int) (done rest : List TurnInput)
    (h : ((done.length + rest.length : Nat) : Int) ≤ a) :
    runTurns tok summ
        ⟨⟨mkSensoryTurns tok 0 done, a⟩, ⟨[], b, r⟩, ⟨[], cmax, []⟩, done.length⟩ rest
      = ⟨⟨mkSensoryTurns tok 0 (done ++ rest), a⟩, ⟨[], b, r⟩, ⟨[], cmax, []⟩,
         (done ++ rest).length⟩ := by
  induction rest generalizing done with
  | nil => simp [runTurns]
  | cons i is ih =>
    have hlen : ¬ (((mkSensoryTurns tok 0 done ++
        [{ turn_number := done.length + 1, user_message := i.user_message,
           assistant_response := i.assistant_response, tool_output := i.tool_output,
           tokens := tok.count (i.user_message ++ " " ++ i.assistant_response)
           : SensoryTurn }]).length : Int) > a) := by
      rw [List.length_append, length_mkSensoryTurns]
      simp only [List.length_cons, List.length_nil] at h ⊢
      push_cast at h ⊢
      omega
    have hstep : (ThreeTierMemorySystem.store_turn tok summ
        ⟨⟨mkSensoryTurns tok 0 done, a⟩, ⟨[], b, r⟩, ⟨[], cmax, []⟩, done.length⟩ i).1
        = ⟨⟨mkSensoryTurns tok 0 (done ++ [i]), a⟩, ⟨[], b, r⟩, ⟨[], cmax, []⟩,
           (done ++ [i]).length⟩ := by
      simp only [ThreeTierMemorySystem.store_turn, SensoryMemory.store, if_neg hlen]
      simp [mkSensoryTurns_append_single]
    rw [runTurns, hstep]
    have hrec := ih (done ++ [i]) (by simp at h ⊢; omega)
    simpa using hrec

/-- C9: for N ingest calls with N within the Immediate-tier capacity, the
Condensed and Archive tiers stay empty and the recent-context text contains
every ingested turn verbatim, in chronological order. -/
theorem no_premature_cascade (tok : Tokenizer) (summ : Summarizer) (a b : Int)
    (r : ℚ) (cmax : Int) (inputs : List TurnInput)
    (h : (inputs.length : Int) ≤ a) :
    (runTurns tok summ (initWith a b r cmax) inputs).short_term.compressed_turns = []
    ∧ (runTurns tok summ (initWith a b r cmax) inputs).long_term.memories = []
    ∧ (runTurns tok summ (initWith a b r cmax) inputs).sensory.turns
        = mkSensoryTurns tok 0 inputs
    ∧ containsInOrder
        (ThreeTierMemorySystem.get_recent_context
          (runTurns tok summ (initWith a b r cmax) inputs))
        (turnTexts inputs) := by
  have hrun := runTurns_small tok summ a b r cmax [] inputs (by simpa using h)
  have hinit : initWith a b r cmax
      = ⟨⟨mkSensoryTurns tok 0 [], a⟩, ⟨[], b, r⟩, ⟨[], cmax, []⟩,
         ([] : List TurnInput).length⟩ := rfl
  rw [hinit, hrun]
  refine ⟨rfl, rfl, by simp, ?_⟩
  cases inputs with
  | nil => trivial
  | cons i is =>
    have hne : mkSensoryTurns tok 0 (i :: is) ≠ [] := by
      simp [mkSensoryTurns]
    have hco := containsInOrder_joinBlocks (mkSensoryTurns tok 0 (i :: is))
    rw [sensoryTexts_mkSensoryTurns] at hco
    simp only [List.nil_append] at hco ⊢
    simp only [ThreeTierMemorySystem.get_recent_context, SensoryMemory.get_context,
      ShortTermMemory.get_context, if_neg hne]
    exact containsInOrder_append_right _ _ _
      (containsInOrder_append_right _ _ _
        (containsInOrder_append_right _ _ _
          (containsInOrder_prepend _ _ _ hco)))

/-- Witness for C9: two ingest calls on the real configuration (Immediate
capacity 2) leave the colder tiers empty and the context contains both turns
in order. -/
theorem no_premature_cascade_witness :
    ((([{ user_message := "hi", assistant_response := "there", tool_output := "",
          entities := [] },
        { user_message := "foo", assistant_response := "bar", tool_output := "",
          entities := [] }] : List TurnInput).length : Int) ≤ 2
    ∧ (runTurns { count := fun s => s.length, truncate := fun s n => s.take n.toNat }
          (fun _ => .ok "X") (initWith 2 5 (1/2) 300)
          [{ user_message := "hi", assistant_response := "there", tool_output := "",
             entities := [] },
           { user_message := "foo", assistant_response := "bar", tool_output := "",
             entities := [] }]).short_term.compressed_turns = []
    ∧ (runTurns { count := fun s => s.length, truncate := fun s n => s.take n.toNat }
          (fun _ => .ok "X") (initWith 2 5 (1/2) 300)
          [{ user_message := "hi", assistant_response := "there", tool_output := "",
             entities := [] },
           { user_message := "foo", assistant_response := "bar", tool_output := "",
             entities := [] }]).long_term.memories = []
    ∧ (runTurns { count := fun s => s.length, truncate := fun s n => s.take n.toNat }
          (fun _ => .ok "X") (initWith 2 5 (1/2) 300)
          [{ user_message := "hi", assistant_response := "there", tool_output := "",
             entities := [] },
           { user_message := "foo", assistant_response := "bar", tool_output := "",
             entities := [] }]).sensory.turns
        = mkSensoryTurns { count := fun s => s.length, truncate := fun s n => s.take n.toNat } 0
            [{ user_message := "hi", assistant_response := "there", tool_output := "",
               entities := [] },
             { user_message := "foo", assistant_response := "bar", tool_output := "",
               entities := [] }]
    ∧ containsInOrder
        (ThreeTierMemorySystem.get_recent_context
          (runTurns { count := fun s => s.length, truncate := fun s n => s.take n.toNat }
            (fun _ => .ok "X") (initWith 2 5 (1/2) 300)
            [{ user_message := "hi", assistant_response := "there", tool_output := "",
               entities := [] },
             { user_message := "foo", assistant_response := "bar", tool_output := "",
               entities := [] }]))
        (turnTexts
          [{ user_message := "hi", assistant_response := "there", tool_output := "",
             entities := [] },
           { user_message := "foo", assistant_response := "bar", tool_output := "",
             entities := [] }])) :=
  ⟨by decide,
   no_premature_cascade { count := fun s => s.length, truncate := fun s n => s.take n.toNat }
     (fun _ => .ok "X") 2 5 (1/2) 300
     [{ user_message := "hi", assistant_response := "there", tool_output := "",
        entities := [] },
      { user_message := "foo", assistant_response := "bar", tool_output := "",
        entities := [] }] (by decide)⟩

/-- The entries of `l` whose score under `f` equals `q`, in their order in
`l` (used to state stability of the retrieval sort). -/
noncomputable def scoreFilter {α : Type} (f : α → ℝ) (q : ℝ) (l : List α) : List α :=
  l.filter (fun c => decide (f c = q))

/-- The retrieval sort is sorted by descending score. -/
theorem sortByScoreDesc_sorted {α : Type} (f : α → ℝ) (l : List α) :
    (sortByScoreDesc f l).Pairwise (fun a b => f b ≤ f a) := by
  haveI : IsTotal α (fun a b => f b ≤ f a) := ⟨fun a b => le_total (f b) (f a)⟩
  haveI : IsTrans α (fun a b => f b ≤ f a) := ⟨fun _ _ _ hab hbc => le_trans hbc hab⟩
  exact List.sorted_insertionSort _ l

/-- The retrieval sort is stable: entries of equal score keep their relative
order from the input list. -/
theorem sortByScoreDesc_stable {α : Type} (f : α → ℝ) (q : ℝ) (l : List α) :
    scoreFilter f q (sortByScoreDesc f l) = scoreFilter f q l := by
  have hpairs : (l.filter (fun c => decide (f c = q))).Pairwise (fun a b => f b ≤ f a) := by
    apply List.pairwise_of_forall_mem_list
    intro a ha b hb
    have ha' := (List.mem_filter.1 ha).2
    have hb' := (List.mem_filter.1 hb).2
    rw [decide_eq_true_eq] at ha' hb'
    rw [ha', hb']
  have hsub1 : List.Sublist (l.filter (fun c => decide (f c = q))) (sortByScoreDesc f l) :=
    List.sublist_insertionSort hpairs (List.filter_sublist l)
  have hsub2 : List.Sublist
      ((l.filter (fun c => decide (f c = q))).filter (fun c => decide (f c = q)))
      ((sortByScoreDesc f l).filter (fun c => decide (f c = q))) :=
    hsub1.filter _
  rw [List.filter_filter] at hsub2
  have hid : (fun c => decide (f c = q) && decide (f c = q)) = fun c => decide (f c = q) := by
    funext c
    cases decide (f c = q) <;> rfl
  rw [hid] at hsub2
  have hperm : ((sortByScoreDesc f l).filter (fun c => decide (f c = q))).Perm
      (l.filter (fun c => decide (f c = q))) :=
    (List.perm_insertionSort _ l).filter _
  exact (hsub2.eq_of_length (hperm.length_eq.symm)).symm

/-- C4 amended: in the sequence returned by `retrieve_context`, candidates
are ordered by descending total score, but ties are broken by position in the
candidate enumeration (Condensed-tier entries before Archive-tier entries,
each in storage order): the sort is stable and applies no turn-number
tie-break.  The returned list is the `max_results`-prefix of the stable
descending sort of the candidate pool. -/
theorem retrieval_sorted_stable (w : RetrieverWeights) (s : ThreeTierMemorySystem)
    (clues : Clues) (k : Nat) :
    (HybridRetriever.retrieve_context w s clues k).Pairwise
      (fun a b => HybridRetriever.compute_hybrid_score w s.current_turn b clues
        ≤ HybridRetriever.compute_hybrid_score w s.current_turn a clues)
    ∧ (∀ q : ℝ,
        scoreFilter (fun c => HybridRetriever.compute_hybrid_score w s.current_turn c clues) q
            (sortByScoreDesc
              (fun c => HybridRetriever.compute_hybrid_score w s.current_turn c clues)
              (HybridRetriever.get_candidate_memories s))
          = scoreFilter (fun c => HybridRetriever.compute_hybrid_score w s.current_turn c clues)
              q (HybridRetriever.get_candidate_memories s))
    ∧ HybridRetriever.retrieve_context w s clues k
        = (sortByScoreDesc
            (fun c => HybridRetriever.compute_hybrid_score w s.current_turn c clues)
            (HybridRetriever.get_candidate_memories s)).take k := by
  have heq : HybridRetriever.retrieve_context w s clues k
      = (sortByScoreDesc
          (fun c => HybridRetriever.compute_hybrid_score w s.current_turn c clues)
          (HybridRetriever.get_candidate_memories s)).take k := by
    by_cases hc : HybridRetriever.get_candidate_memories s = []
    · simp [HybridRetriever.retrieve_context, hc, sortByScoreDesc, List.insertionSort]
    · simp [HybridRetriever.retrieve_context, hc]
  refine ⟨?_, fun q => sortByScoreDesc_stable _ q _, heq⟩
  rw [heq]
  exact (sortByScoreDesc_sorted _ _).sublist (List.take_sublist _ _)

/-- Candidate (from the Condensed tier, turn 1) for the C4 counterexample. -/
def c4Candidate1 : Candidate :=
  { turn_number := 1, summary := "alpha", entities := [], tokens := 5,
    source := "short_term" }

/-- Candidate (from the Condensed tier, turn 2) for the C4 counterexample. -/
def c4Candidate2 : Candidate :=
  { turn_number := 2, summary := "alpha", entities := [], tokens := 5,
    source := "short_term" }

/-- Tier state for the C4 counterexample: two condensed turns with identical
text and entities. -/
def c4State : ThreeTierMemorySystem :=
  { sensory := { turns := [], max_turns := 2 }
    short_term :=
      { compressed_turns :=
          [{ turn_number := 1, original_tokens := 10, compressed_summary := "alpha",
             compressed_tokens := 5, entities := [] },
           { turn_number := 2, original_tokens := 10, compressed_summary := "alpha",
             compressed_tokens := 5, entities := [] }]
        max_turns := 5, compression_ratio := 1/2 }
    long_term := { memories := [], max_memories := 300, entity_index := [] }
    current_turn := 2 }

/-- Retriever weights for the C4 counterexample: non-negative, with the
recency component switched off so that the two candidates tie exactly. -/
def c4Weights : RetrieverWeights := { semantic := 4/10, entity := 3/10, recency := 0 }

/-- Query for the C4 counterexample. -/
def c4Clues : Clues := { clues := "alpha", entities := [] }

/-- C4 counterexample: two candidates with equal total scores are returned in
candidate-enumeration order — the tied candidate with the SMALLER turn_number
(turn 1) precedes the more recent one (turn 2), refuting the claimed
descending-turn-number tie-break. -/
theorem retrieval_tie_break_cex :
    HybridRetriever.retrieve_context c4Weights c4State c4Clues 5
      = [c4Candidate1, c4Candidate2]
    ∧ HybridRetriever.compute_hybrid_score c4Weights c4State.current_turn c4Candidate1 c4Clues
      = HybridRetriever.compute_hybrid_score c4Weights c4State.current_turn c4Candidate2 c4Clues
    ∧ c4Candidate1.turn_number < c4Candidate2.turn_number := by
  have hscore : HybridRetriever.compute_hybrid_score c4Weights c4State.current_turn
      c4Candidate1 c4Clues
      = HybridRetriever.compute_hybrid_score c4Weights c4State.current_turn
        c4Candidate2 c4Clues := by
    simp only [HybridRetriever.compute_hybrid_score, c4Weights, c4Candidate1, c4Candidate2,
      c4Clues, c4State]
    norm_num
  have hcand : HybridRetriever.get_candidate_memories c4State
      = [c4Candidate1, c4Candidate2] := rfl
  refine ⟨?_, hscore, by decide⟩
  rw [HybridRetriever.retrieve_context, hcand]
  rw [if_neg (by simp : ¬([c4Candidate1, c4Candidate2] : List Candidate) = [])]
  rw [sortByScoreDesc]
  simp only [List.insertionSort, List.orderedInsert]
  rw [if_pos (le_of_eq hscore.symm)]
  rfl

/-- The turn numbers of all turns materialized anywhere in the system, in
tier order Archive, Condensed, Immediate (coldest first). -/
def turnsSeq (s : ThreeTierMemorySystem) : List Nat :=
  s.long_term.memories.map ArchivedMemory.turn_number
    ++ (s.short_term.compressed_turns.map CondensedTurn.turn_number
      ++ s.sensory.turns.map SensoryTurn.turn_number)

/-- `SensoryMemory.store` either appends the new turn number, or pops the
oldest turn so that old-appended equals popped-consed. -/
theorem sensory_store_turnsMap (tok : Tokenizer) (sm : SensoryMemory) (td : TurnData) :
    ((SensoryMemory.store tok sm td).2 = none
      ∧ (SensoryMemory.store tok sm td).1.turns.map SensoryTurn.turn_number
          = sm.turns.map SensoryTurn.turn_number ++ [td.turn_number])
    ∨ (∃ pt, (SensoryMemory.store tok sm td).2 = some pt
        ∧ pt.turn_number
            :: (SensoryMemory.store tok sm td).1.turns.map SensoryTurn.turn_number
          = sm.turns.map SensoryTurn.turn_number ++ [td.turn_number]) := by
  simp only [SensoryMemory.store]
  split
  · right
    have hne : sm.turns ++
        [{ turn_number := td.turn_number, user_message := td.user_message,
           assistant_response := td.assistant_response, tool_output := td.tool_output,
           tokens := tok.count (td.user_message ++ " " ++ td.assistant_response)
           : SensoryTurn }] ≠ [] := by simp
    refine ⟨_, List.head?_eq_head hne, ?_⟩
    have hc := List.head_cons_tail _ hne
    have hm := congrArg (List.map SensoryTurn.turn_number) hc
    rw [List.map_cons] at hm
    rw [hm]
    simp
  · left
    refine ⟨rfl, ?_⟩
    simp

/-- `ShortTermMemory.compress_and_store` either appends the compressed entry
carrying the promoted turn number, or additionally pops the oldest entry. -/
theorem compress_and_store_turnsMap (tok : Tokenizer) (summ : Summarizer)
    (st : ShortTermMemory) (t : SensoryTurn) :
    ((ShortTermMemory.compress_and_store tok summ st t).2 = none
      ∧ (ShortTermMemory.compress_and_store tok summ st t).1.compressed_turns.map
            CondensedTurn.turn_number
          = st.compressed_turns.map CondensedTurn.turn_number ++ [t.turn_number])
    ∨ (∃ c, (ShortTermMemory.compress_and_store tok summ st t).2 = some c
        ∧ c.turn_number
            :: (ShortTermMemory.compress_and_store tok summ st t).1.compressed_turns.map
                CondensedTurn.turn_number
          = st.compressed_turns.map CondensedTurn.turn_number ++ [t.turn_number]) := by
  simp only [ShortTermMemory.compress_and_store]
  split
  · right
    have hne : st.compressed_turns ++
        [{ turn_number := t.turn_number,
           original_tokens := tok.count (t.user_message ++ " " ++ t.assistant_response),
           compressed_summary := ShortTermMemory.compress_turn tok summ st.compression_ratio t,
           compressed_tokens :=
             tok.count (ShortTermMemory.compress_turn tok summ st.compression_ratio t),
           entities := [] : CondensedTurn }] ≠ [] := by simp
    refine ⟨_, List.head?_eq_head hne, ?_⟩
    have hc := List.head_cons_tail _ hne
    have hm := congrArg (List.map CondensedTurn.turn_number) hc
    rw [List.map_cons] at hm
    rw [hm]
    simp
  · left
    refine ⟨rfl, ?_⟩
    simp

/-- `LongTermMemory.archive_turn` either appends the archived entry carrying
the condensed turn number, or additionally pops (and returns) the oldest
memory. -/
theorem archive_turn_turnsMap (tok : Tokenizer) (summ : Summarizer)
    (lt : LongTermMemory) (c : CondensedTurn) :
    ((LongTermMemory.archive_turn tok summ lt c).2 = none
      ∧ (LongTermMemory.archive_turn tok summ lt c).1.memories.map
            ArchivedMemory.turn_number
          = lt.memories.map ArchivedMemory.turn_number ++ [c.turn_number])
    ∨ (∃ m, (LongTermMemory.archive_turn tok summ lt c).2 = some m
        ∧ m.turn_number
            :: (LongTermMemory.archive_turn tok summ lt c).1.memories.map
                ArchivedMemory.turn_number
          = lt.memories.map ArchivedMemory.turn_number ++ [c.turn_number]) := by
  simp only [LongTermMemory.archive_turn]
  have hne : lt.memories ++
      [{ id := lt.memories.length, turn_number := c.turn_number,
         ultra_summary := LongTermMemory.ultra_compress tok summ c,
         entities := c.entities,
         tokens := tok.count (LongTermMemory.ultra_compress tok summ c)
         : ArchivedMemory }] ≠ [] := by simp
  split
  · rw [List.head?_eq_head hne]
    right
    refine ⟨_, rfl, ?_⟩
    have hc := List.head_cons_tail _ hne
    have hm := congrArg (List.map ArchivedMemory.turn_number) hc
    rw [List.map_cons] at hm
    rw [hm]
    simp
  · left
    refine ⟨rfl, ?_⟩
    simp

/-- List algebra for a one-level cascade: appending the new element to the
last segment. -/
theorem seqChain0 {β : Type} (A B C C1 : List β) (x : β) (h1 : C1 = C ++ [x]) :
    A ++ (B ++ C1) = (A ++ (B ++ C)) ++ [x] := by
  subst h1
  simp [List.append_assoc]

/-- List algebra for a two-level cascade: the element popped from the last
segment is appended to the middle one. -/
theorem seqChain1 {β : Type} (A B C B1 C1 : List β) (x y : β)
    (h1 : y :: C1 = C ++ [x]) (h2 : B1 = B ++ [y]) :
    A ++ (B1 ++ C1) = (A ++ (B ++ C)) ++ [x] := by
  subst h2
  calc A ++ ((B ++ [y]) ++ C1) = A ++ (B ++ (y :: C1)) := by simp [List.append_assoc]
    _ = A ++ (B ++ (C ++ [x])) := by rw [h1]
    _ = (A ++ (B ++ C)) ++ [x] := by simp [List.append_assoc]

/-- List algebra for a three-level cascade without eviction. -/
theorem seqChain2 {β : Type} (A B C A1 B1 C1 : List β) (x y z : β)
    (h1 : y :: C1 = C ++ [x]) (h2 : z :: B1 = B ++ [y]) (h3 : A1 = A ++ [z]) :
    A1 ++ (B1 ++ C1) = (A ++ (B ++ C)) ++ [x] := by
  subst h3
  calc (A ++ [z]) ++ (B1 ++ C1) = A ++ ((z :: B1) ++ C1) := by simp [List.append_assoc]
    _ = A ++ ((B ++ [y]) ++ C1) := by rw [h2]
    _ = A ++ (B ++ (y :: C1)) := by simp [List.append_assoc]
    _ = A ++ (B ++ (C ++ [x])) := by rw [h1]
    _ = (A ++ (B ++ C)) ++ [x] := by simp [List.append_assoc]

/-- List algebra for a full cascade with eviction from the first segment. -/
theorem seqChain3 {β : Type} (A B C A1 B1 C1 : List β) (x y z w : β)
    (h1 : y :: C1 = C ++ [x]) (h2 : z :: B1 = B ++ [y]) (h3 : w :: A1 = A ++ [z]) :
    w :: (A1 ++ (B1 ++ C1)) = (A ++ (B ++ C)) ++ [x] := by
  calc w :: (A1 ++ (B1 ++ C1)) = (w :: A1) ++ (B1 ++ C1) := rfl
    _ = (A ++ [z]) ++ (B1 ++ C1) := by rw [h3]
    _ = A ++ ((z :: B1) ++ C1) := by simp [List.append_assoc]
    _ = A ++ ((B ++ [y]) ++ C1) := by rw [h2]
    _ = A ++ (B ++ (y :: C1)) := by simp [List.append_assoc]
    _ = A ++ (B ++ (C ++ [x])) := by rw [h1]
    _ = (A ++ (B ++ C)) ++ [x] := by simp [List.append_assoc]

/-- One ingest appends the new turn number to the combined sequence of turn
numbers, and, when the Archive tier evicts, additionally drops the evicted
memory from the front: old-sequence-plus-new equals evicted-consed-on-new-
sequence. -/
theorem turnsSeq_store_turn (tok : Tokenizer) (summ : Summarizer)
    (s : ThreeTierMemorySystem) (inp : TurnInput) :
    ((ThreeTierMemorySystem.store_turn tok summ s inp).2 = none
      ∧ turnsSeq (ThreeTierMemorySystem.store_turn tok summ s inp).1
          = turnsSeq s ++ [s.current_turn + 1])
    ∨ (∃ m, (ThreeTierMemorySystem.store_turn tok summ s inp).2 = some m
        ∧ m.turn_number :: turnsSeq (ThreeTierMemorySystem.store_turn tok summ s inp).1
            = turnsSeq s ++ [s.current_turn + 1]) := by
  have hA := sensory_store_turnsMap tok s.sensory
    { turn_number := s.current_turn + 1, user_message := inp.user_message,
      assistant_response := inp.assistant_response, tool_output := inp.tool_output,
      entities := inp.entities }
  simp only [ThreeTierMemorySystem.store_turn]
  rcases hA with ⟨h2, hmap⟩ | ⟨pt, h2, hmap⟩
  · simp only [h2]
    left
    exact ⟨trivial, seqChain0 _ _ _ _ _ hmap⟩
  · simp only [h2]
    have hB := compress_and_store_turnsMap tok summ s.short_term pt
    rcases hB with ⟨h3, hmap2⟩ | ⟨c, h3, hmap2⟩
    · simp only [h3]
      left
      exact ⟨trivial, seqChain1 _ _ _ _ _ _ _ hmap hmap2⟩
    · simp only [h3]
      have hC := archive_turn_turnsMap tok summ s.long_term c
      rcases hC with ⟨h4, hmap3⟩ | ⟨m, h4, hmap3⟩
      · simp only [h4]
        left
        exact ⟨trivial, seqChain2 _ _ _ _ _ _ _ _ _ hmap hmap2 hmap3⟩
      · simp only [h4]
        right
        exact ⟨m, rfl, seqChain3 _ _ _ _ _ _ _ _ _ _ hmap hmap2 hmap3⟩

/-- Ordering invariant: turn numbers are strictly increasing across the
tiers, coldest first, and bounded by the turn counter. -/
def TierOrderInv (s : ThreeTierMemorySystem) : Prop :=
  (turnsSeq s).Pairwise (· < ·) ∧ ∀ n ∈ turnsSeq s, n ≤ s.current_turn

/-- Appending the next turn number keeps the sequence strictly increasing. -/
theorem turnsSeq_append_pairwise (s : ThreeTierMemorySystem) (h : TierOrderInv s) :
    (turnsSeq s ++ [s.current_turn + 1]).Pairwise (· < ·) := by
  rw [List.pairwise_append]
  refine ⟨h.1, List.pairwise_singleton _ _, ?_⟩
  intro a ha b hb
  rcases List.mem_singleton.1 hb with rfl
  exact Nat.lt_succ_of_le (h.2 a ha)

/-- `store_turn` increments the turn counter. -/
theorem store_turn_current (tok : Tokenizer) (summ : Summarizer)
    (s : ThreeTierMemorySystem) (inp : TurnInput) :
    (ThreeTierMemorySystem.store_turn tok summ s inp).1.current_turn
      = s.current_turn + 1 := by
  simp only [ThreeTierMemorySystem.store_turn, SensoryMemory.store]
  split <;> (try split) <;> (try split) <;> rfl

/-- One `store_turn` call preserves the ordering invariant. -/
theorem store_turn_tierOrder (tok : Tokenizer) (summ : Summarizer)
    (s : ThreeTierMemorySystem) (inp : TurnInput) (h : TierOrderInv s) :
    TierOrderInv (ThreeTierMemorySystem.store_turn tok summ s inp).1 := by
  have hpL := turnsSeq_append_pairwise s h
  have hct := store_turn_current tok summ s inp
  rcases turnsSeq_store_turn tok summ s inp with ⟨_, hseq⟩ | ⟨m, _, hseq⟩
  · refine ⟨by rw [hseq]; exact hpL, ?_⟩
    intro n hn
    rw [hseq] at hn
    rw [hct]
    rcases List.mem_append.1 hn with hn | hn
    · exact Nat.le_succ_of_le (h.2 n hn)
    · rcases List.mem_singleton.1 hn with rfl
      exact le_refl _
  · have hcons : (m.turn_number
        :: turnsSeq (ThreeTierMemorySystem.store_turn tok summ s inp).1).Pairwise
        (· < ·) := by
      rw [hseq]
      exact hpL
    refine ⟨hcons.of_cons, ?_⟩
    intro n hn
    have hn' : n ∈ turnsSeq s ++ [s.current_turn + 1] := by
      rw [← hseq]
      exact List.mem_cons_of_mem _ hn
    rw [hct]
    rcases List.mem_append.1 hn' with hn' | hn'
    · exact Nat.le_succ_of_le (h.2 n hn')
    · rcases List.mem_singleton.1 hn' with rfl
      exact le_refl _

/-- The ordering invariant holds for every ingest-only reachable state. -/
theorem runTurns_tierOrder (tok : Tokenizer) (summ : Summarizer)
    (s : ThreeTierMemorySystem) (inputs : List TurnInput) (h : TierOrderInv s) :
    TierOrderInv (runTurns tok summ s inputs) := by
  induction inputs generalizing s with
  | nil => exact h
  | cons i is ih => exact ih _ (store_turn_tierOrder tok summ s i h)

/-- C8: Archive FIFO eviction: whenever an ingest cascade on a reachable
state permanently discards an archived memory, that memory has a strictly
smaller turn_number than every memory still resident in the Archive Tier —
the occupants at the moment of eviction are exactly the discarded memory plus
the remaining residents, so the evicted one is the unique minimum by
turn_number. -/
theorem archive_eviction_fifo (tok : Tokenizer) (summ : Summarizer)
    (a b : Int) (r : ℚ) (cmax : Int) (inputs : List TurnInput) (inp : TurnInput)
    (m : ArchivedMemory)
    (h : (ThreeTierMemorySystem.store_turn tok summ
        (runTurns tok summ (initWith a b r cmax) inputs) inp).2 = some m) :
    ∀ m' ∈ (ThreeTierMemorySystem.store_turn tok summ
        (runTurns tok summ (initWith a b r cmax) inputs) inp).1.long_term.memories,
      m.turn_number < m'.turn_number := by
  have hinv : TierOrderInv (runTurns tok summ (initWith a b r cmax) inputs) := by
    refine runTurns_tierOrder tok summ _ inputs ⟨List.Pairwise.nil, ?_⟩
    intro n hn
    simp [turnsSeq, initWith] at hn
  rcases turnsSeq_store_turn tok summ (runTurns tok summ (initWith a b r cmax) inputs) inp
    with ⟨h2, _⟩ | ⟨m2, h2, hseq⟩
  · rw [h] at h2
    cases h2
  · rw [h] at h2
    have hm2 : m2 = m := Option.some.inj h2.symm
    subst hm2
    have hcons : (m2.turn_number
        :: turnsSeq (ThreeTierMemorySystem.store_turn tok summ
            (runTurns tok summ (initWith a b r cmax) inputs) inp).1).Pairwise (· < ·) := by
      rw [hseq]
      exact turnsSeq_append_pairwise _ hinv
    intro m' hm'
    refine List.rel_of_pairwise_cons hcons ?_
    simp only [turnsSeq]
    exact List.mem_append.2 (Or.inl (List.mem_map_of_mem _ hm'))

/-- Witness for C8: with capacities 1/1/1, the fourth ingest evicts the
archived memory of turn 1, which has a strictly smaller turn number than
every remaining Archive occupant. -/
theorem archive_eviction_fifo_witness :
    (ThreeTierMemorySystem.store_turn
        { count := fun s => s.length, truncate := fun s n => s.take n.toNat }
        (fun _ => .ok "X")
        (runTurns { count := fun s => s.length, truncate := fun s n => s.take n.toNat }
          (fun _ => .ok "X") (initWith 1 1 (1/2) 1)
          [{ user_message := "u", assistant_response := "a", tool_output := "",
             entities := [] },
           { user_message := "u", assistant_response := "a", tool_output := "",
             entities := [] },
           { user_message := "u", assistant_response := "a", tool_output := "",
             entities := [] }])
        { user_message := "u", assistant_response := "a", tool_output := "",
          entities := [] }).2
      = some { id := 0, turn_number := 1, ultra_summary := "X", entities := [], tokens := 1 }
    ∧ ∀ m' ∈ (ThreeTierMemorySystem.store_turn
        { count := fun s => s.length, truncate := fun s n => s.take n.toNat }
        (fun _ => .ok "X")
        (runTurns { count := fun s => s.length, truncate := fun s n => s.take n.toNat }
          (fun _ => .ok "X") (initWith 1 1 (1/2) 1)
          [{ user_message := "u", assistant_response := "a", tool_output := "",
             entities := [] },
           { user_message := "u", assistant_response := "a", tool_output := "",
             entities := [] },
           { user_message := "u", assistant_response := "a", tool_output := "",
             entities := [] }])
        { user_message := "u", assistant_response := "a", tool_output := "",
          entities := [] }).1.long_term.memories,
      ({ id := 0, turn_number := 1, ultra_summary := "X", entities := [],
         tokens := 1 } : ArchivedMemory).turn_number < m'.turn_number :=
  ⟨rfl,
   archive_eviction_fifo
     { count := fun s => s.length, truncate := fun s n => s.take n.toNat }
     (fun _ => .ok "X") 1 1 (1/2) 1
     [{ user_message := "u", assistant_response := "a", tool_output := "",
        entities := [] },
      { user_message := "u", assistant_response := "a", tool_output := "",
        entities := [] },
      { user_message := "u", assistant_response := "a", tool_output := "",
        entities := [] }]
     { user_message := "u", assistant_response := "a", tool_output := "", entities := [] }
     { id := 0, turn_number := 1, ultra_summary := "X", entities := [], tokens := 1 }
     rfl⟩
